import Mathlib

/-!
Verification of the Tailscale device status monitor (`src/main.py`).

The development shallowly embeds the core logic of the monitor:

* `is_device_online` — the liveness classifier (`main.py`, lines 74-97).
  Timestamps are modelled as rationals (seconds); the external
  `datetime.fromisoformat` call, together with the `.replace` normalisation
  and the surrounding try/except, is abstracted as a function
  `parse : String → Option ℚ` where `none` models a parse exception
  (caught by the code, which then returns `False`).
* `buildSnapshot` — the snapshot construction loop shared by
  `check_devices` (lines 200-209) and `send_initial_status` (lines 184-192).
  Python dicts are modelled as insertion-ordered association lists with
  `dictInsert` (update-in-place for an existing key, append otherwise) and
  `dictGet` (first match).  `device['id']` raising `KeyError` on a missing
  key is modelled by the `Option` monad: a record without an id makes the
  whole build return `none`.
* `diffChanges` — the change-detection loops of `check_devices`
  (lines 215-243), building the `changes` list by two successive passes.
* `initialStatusBodyParts` — the status-report body of
  `send_initial_status` (lines 150-178); Python's `sorted` on strings is
  modelled by insertion sort over the lexicographic order on `String`.
-/

/-- A raw device record as consumed from the inventory API payload.
Only the fields the monitor reads are modelled; `none` models an absent
key (`device.get(...)` returning `None` / `device[...]` raising). -/
structure RawDevice where
  id : Option String
  name : Option String
  hostname : Option String
  lastSeen : Option String
deriving Repr, DecidableEq

/-- A snapshot entry: the dict value stored under a device id by
`check_devices` / `send_initial_status` (`main.py`, lines 205-209). -/
structure Entry where
  name : String
  online : Bool
  lastSeen : String
deriving Repr, DecidableEq

/-- A snapshot: a Python dict from device id to entry, modelled as an
insertion-ordered association list. -/
abbrev Snapshot := List (String × Entry)

/-- The keys of a snapshot, in insertion order. -/
def keys (m : Snapshot) : List String := m.map Prod.fst

/-- A snapshot is well formed when, as in a Python dict, its keys are
pairwise distinct. -/
def keysNodup (m : Snapshot) : Prop := (keys m).Nodup

/-- `m.get(k)` on a Python dict: the value at `k`, or `none`. -/
def dictGet (m : Snapshot) (k : String) : Option Entry :=
  (m.find? (fun p => p.1 = k)).map Prod.snd

/-- `k in m` on a Python dict. -/
def dictContains (m : Snapshot) (k : String) : Bool :=
  m.any (fun p => p.1 = k)

/-- `m[k] = v` on a Python dict: update in place if `k` is present
(keeping its position), append otherwise. -/
def dictInsert (m : Snapshot) (k : String) (v : Entry) : Snapshot :=
  if dictContains m k then
    m.map (fun p => if p.1 = k then (k, v) else p)
  else
    m ++ [(k, v)]

/-- The liveness classifier `is_device_online` (`main.py`, lines 74-97).
`device.get('lastSeen')` is falsy for an absent key and for the empty
string, so both return `False` before any parsing.  A successful parse
yields the timestamp `t`; the device is online iff
`now - t < thresholdSeconds`, with `timedelta`'s strict `<`.  A parse
exception (`parse _ = none`) is caught and yields `False`. -/
def is_device_online (parse : String → Option ℚ) (now : ℚ) (threshold : Int)
    (device : RawDevice) : Bool :=
  match device.lastSeen with
  | none => false
  | some s =>
    if s = "" then false
    else
      match parse s with
      | none => false
      | some t => decide (now - t < (threshold : ℚ))

/-- The display name: `device.get('name') or device.get('hostname', 'Unknown')`
(`main.py`, lines 139 and 206).  Python's `or` falls through when
`device.get('name')` is `None` or the empty string. -/
def displayName (device : RawDevice) : String :=
  match device.name with
  | some s => if s = "" then device.hostname.getD "Unknown" else s
  | none => device.hostname.getD "Unknown"

/-- The snapshot entry built for one raw device (`main.py`, lines 205-209):
display name, recomputed liveness, and `device.get('lastSeen', '')`. -/
def mkEntry (parse : String → Option ℚ) (now : ℚ) (threshold : Int)
    (device : RawDevice) : Entry :=
  { name := displayName device
    online := is_device_online parse now threshold device
    lastSeen := device.lastSeen.getD "" }

/-- The snapshot-building loop of `check_devices` (`main.py`, lines 200-209)
and `send_initial_status` (lines 184-192): for each record,
`device_id = device['id']` — a `KeyError` on a missing id aborts the whole
loop, modelled by `none` — then `current_devices[device_id] = {...}`. -/
def buildSnapshot (parse : String → Option ℚ) (now : ℚ) (threshold : Int)
    (devices : List RawDevice) : Option Snapshot :=
  devices.foldl
    (fun acc d =>
      match acc, d.id with
      | none, _ => none
      | some _, none => none
      | some m, some i => some (dictInsert m i (mkEntry parse now threshold d)))
    (some [])

/-- A change event, as appended to the `changes` list by `check_devices`
(`main.py`, lines 223-243): the device display name, the status string
and the change type string. -/
structure Change where
  device : String
  status : String
  type : String
deriving Repr, DecidableEq

/-- The change-detection loops of `check_devices` (`main.py`, lines 215-243),
translated loop by loop: the first pass walks `current_devices.items()` in
insertion order appending new/changed events, the second pass walks
`previous_state.items()` appending removed events. -/
def diffChanges (current previous : Snapshot) : List Change :=
  let changes := current.foldl
    (fun acc p =>
      match dictGet previous p.1 with
      | none =>
        acc ++ [{ device := p.2.name
                  status := if p.2.online then "online" else "offline"
                  type := "new" }]
      | some prev =>
        if prev.online != p.2.online then
          acc ++ [{ device := p.2.name
                    status := if p.2.online then "online" else "offline"
                    type := "changed" }]
        else acc)
    []
  previous.foldl
    (fun acc p =>
      if dictContains current p.1 then acc
      else
        acc ++ [{ device := p.2.name, status := "removed", type := "removed" }])
    changes

/-- The first pass of the diff, instrumented with the id that produced
each event: the event `check_devices` appends for `(id, device)` in
`current_devices.items()`, if any. -/
def step1Tagged (current previous : Snapshot) : List (String × Change) :=
  current.filterMap
    (fun p =>
      match dictGet previous p.1 with
      | none =>
        some (p.1, { device := p.2.name
                     status := if p.2.online then "online" else "offline"
                     type := "new" })
      | some prev =>
        if prev.online != p.2.online then
          some (p.1, { device := p.2.name
                       status := if p.2.online then "online" else "offline"
                       type := "changed" })
        else none)

/-- The second pass of the diff, instrumented with the id that produced
each removed event. -/
def removedTagged (current previous : Snapshot) : List (String × Change) :=
  previous.filterMap
    (fun p =>
      if dictContains current p.1 then none
      else some (p.1, { device := p.2.name, status := "removed", type := "removed" }))

/-- The diff with every event tagged by the id that produced it. -/
def diffTagged (current previous : Snapshot) : List (String × Change) :=
  step1Tagged current previous ++ removedTagged current previous

/-- Python's `sorted` on a list of strings: the ascending lexicographic
reordering (`main.py`, lines 161 and 170). -/
def pySorted (xs : List String) : List String :=
  List.insertionSort (· ≤ ·) xs

/-- The `online_devices` list of `send_initial_status` (`main.py`,
lines 138-145): display names of the devices classified online, in
payload order. -/
def onlineNames (parse : String → Option ℚ) (now : ℚ) (threshold : Int)
    (devices : List RawDevice) : List String :=
  (devices.filter (fun d => is_device_online parse now threshold d)).map displayName

/-- The `offline_devices` list of `send_initial_status`. -/
def offlineNames (parse : String → Option ℚ) (now : ℚ) (threshold : Int)
    (devices : List RawDevice) : List String :=
  (devices.filter (fun d => !is_device_online parse now threshold d)).map displayName

/-- The `body_parts` list of `send_initial_status` (`main.py`,
lines 150-176), built append by append from the two name lists. -/
def statusBodyParts (interval : Int) (online offline : List String) :
    List String :=
  let parts := ["Total Devices: " ++ toString (online.length + offline.length),
                "",
                "🟢 Online (" ++ toString online.length ++ "):"]
  let parts := parts ++
    (if online.isEmpty then ["  (none)"]
     else (pySorted online).map (fun d => "  • " ++ d))
  let parts := parts ++ ["", "🔴 Offline (" ++ toString offline.length ++ "):"]
  let parts := parts ++
    (if offline.isEmpty then ["  (none)"]
     else (pySorted offline).map (fun d => "  • " ++ d))
  parts ++ ["",
            "🔍 Now monitoring for changes (checking every " ++ toString interval ++ "s)..."]

/-- The full status-report body: `body = "\n".join(body_parts)`
(`main.py`, line 178), from the raw payload. -/
def initialStatusBody (parse : String → Option ℚ) (now : ℚ) (threshold : Int)
    (interval : Int) (devices : List RawDevice) : String :=
  String.intercalate "\n"
    (statusBodyParts interval (onlineNames parse now threshold devices)
      (offlineNames parse now threshold devices))

/-- The new/changed events of the diff, in the order the first pass of
`check_devices` appends them: the insertion order of `current`. -/
def newChangedEvents (current previous : Snapshot) : List Change :=
  (step1Tagged current previous).map Prod.snd

/-- The removed events of the diff, in the order the second pass of
`check_devices` appends them: the insertion order of `previous`. -/
def removedEvents (current previous : Snapshot) : List Change :=
  (removedTagged current previous).map Prod.snd

/-- The last raw record in `devices` whose id is `i`: the record whose
entry survives the last-write-wins dict assignment of the build loop. -/
def lastWithId (devices : List RawDevice) (i : String) : Option RawDevice :=
  devices.reverse.find? (fun d => d.id = some i)
theorem dictGet_eq_none (m : Snapshot) (k : String) :
    dictGet m k = none ↔ dictContains m k = false := by
  induction m with
  | nil => simp [dictGet, dictContains]
  | cons p m ih =>
    by_cases h : p.1 = k
    · simp [dictGet, dictContains, List.find?_cons, h]
    · simp only [dictGet, dictContains, List.find?_cons, List.any_cons, h,
        decide_eq_true_eq] at ih ⊢
      simp [h, ih]

theorem dictContains_true (m : Snapshot) (k : String) :
    dictContains m k = true ↔ ∃ e, (k, e) ∈ m := by
  unfold dictContains
  simp only [List.any_eq_true, decide_eq_true_eq]
  constructor
  · rintro ⟨⟨k', e⟩, hm, rfl⟩
    exact ⟨e, hm⟩
  · rintro ⟨e, hm⟩
    exact ⟨(k, e), hm, rfl⟩

theorem dictGet_mem (m : Snapshot) (k : String) (e : Entry)
    (h : dictGet m k = some e) : (k, e) ∈ m := by
  unfold dictGet at h
  cases hf : m.find? (fun p => p.1 = k) with
  | none => rw [hf] at h; simp at h
  | some q =>
    rw [hf] at h
    have hq := List.find?_some hf
    have hqm := List.mem_of_find?_eq_some hf
    simp only [decide_eq_true_eq] at hq
    simp only [Option.map_some', Option.some.injEq] at h
    cases q
    simp only at hq
    subst hq
    subst h
    exact hqm
theorem dictGet_of_mem (m : Snapshot) (k : String) (e : Entry)
    (hnd : keysNodup m) (hm : (k, e) ∈ m) : dictGet m k = some e := by
  induction m with
  | nil => simp at hm
  | cons p m ih =>
    unfold keysNodup keys at hnd
    simp only [List.map_cons, List.nodup_cons, List.mem_map] at hnd
    rcases List.mem_cons.mp hm with h | h
    · subst h
      simp [dictGet, List.find?_cons]
    · have hne : p.1 ≠ k := by
        intro hk
        exact hnd.1 ⟨(k, e), h, by simp [hk]⟩
      have := ih hnd.2 h
      unfold dictGet at this ⊢
      rw [List.find?_cons]
      simp [hne, this]

theorem filter_key_of_nodup (m : Snapshot) (k : String) (hnd : keysNodup m) :
    m.filter (fun p => p.1 = k) =
      (dictGet m k).elim [] (fun e => [(k, e)]) := by
  induction m with
  | nil => simp [dictGet]
  | cons p m ih =>
    unfold keysNodup keys at hnd
    simp only [List.map_cons, List.nodup_cons, List.mem_map] at hnd
    by_cases h : p.1 = k
    · have hrest : m.filter (fun p => p.1 = k) = [] := by
        apply List.filter_eq_nil_iff.mpr
        intro q hq
        simp only [decide_eq_true_eq]
        intro hk
        exact hnd.1 ⟨q, hq, by rw [hk, h]⟩
      have hgetrest : dictGet m k = none := by
        cases hg : dictGet m k with
        | none => rfl
        | some e =>
          have := dictGet_mem m k e hg
          have : (k, e) ∈ m.filter (fun p => p.1 = k) :=
            List.mem_filter.mpr ⟨this, by simp⟩
          rw [hrest] at this
          simp at this
      cases p with
      | mk k' e =>
        simp only at h
        subst h
        simp [List.filter_cons, hrest, dictGet, List.find?_cons]
    · simp only [List.filter_cons]
      rw [if_neg (by simp [h])]
      have : dictGet (p :: m) k = dictGet m k := by
        unfold dictGet
        rw [List.find?_cons]
        simp [h]
      rw [this]
      exact ih hnd.2
theorem filter_fst_filterMap {β : Type} (f : String × Entry → Option (String × β))
    (hf : ∀ p q, f p = some q → q.1 = p.1) (m : Snapshot) (k : String) :
    (m.filterMap f).filter (fun q => q.1 = k) =
      (m.filter (fun p => p.1 = k)).filterMap f := by
  induction m with
  | nil => simp
  | cons p m ih =>
    rw [List.filterMap_cons, List.filter_cons]
    cases hp : f p with
    | none =>
      by_cases h : p.1 = k
      · rw [if_pos (by simp [h]), List.filterMap_cons, hp]
        exact ih
      · rw [if_neg (by simp [h])]
        exact ih
    | some q =>
      have hq := hf p q hp
      rw [List.filter_cons]
      by_cases h : p.1 = k
      · rw [if_pos (by simp [hq, h]), if_pos (by simp [h]), List.filterMap_cons, hp]
        rw [ih]
      · rw [if_neg (by simp [hq, h]), if_neg (by simp [h])]
        exact ih
theorem fold1_eq (previous : Snapshot) (current : Snapshot) :
    ∀ (init : List Change),
      current.foldl
        (fun acc p =>
          match dictGet previous p.1 with
          | none =>
            acc ++ [{ device := p.2.name
                      status := if p.2.online then "online" else "offline"
                      type := "new" }]
          | some prev =>
            if prev.online != p.2.online then
              acc ++ [{ device := p.2.name
                        status := if p.2.online then "online" else "offline"
                        type := "changed" }]
            else acc)
        init
      = init ++ newChangedEvents current previous := by
  induction current with
  | nil => intro init; simp [newChangedEvents, step1Tagged]
  | cons p current ih =>
    intro init
    rw [List.foldl_cons]
    cases h : dictGet previous p.1 with
    | none =>
      simp only [h]
      rw [ih]
      simp [newChangedEvents, step1Tagged, List.filterMap_cons, h]
    | some prev =>
      simp only [h]
      by_cases hon : prev.online = p.2.online
      · rw [if_neg (by simp [bne_iff_ne, hon])]
        rw [ih]
        simp [newChangedEvents, step1Tagged, List.filterMap_cons, h, hon]
      · rw [if_pos (by simp [bne_iff_ne, hon])]
        rw [ih]
        simp [newChangedEvents, step1Tagged, List.filterMap_cons, h, hon]

theorem fold2_eq (current : Snapshot) (previous : Snapshot) :
    ∀ (init : List Change),
      previous.foldl
        (fun acc p =>
          if dictContains current p.1 then acc
          else
            acc ++ [{ device := p.2.name, status := "removed", type := "removed" }])
        init
      = init ++ removedEvents current previous := by
  induction previous with
  | nil => intro init; simp [removedEvents, removedTagged]
  | cons p previous ih =>
    intro init
    rw [List.foldl_cons]
    by_cases h : dictContains current p.1
    · simp only [h, if_true]
      rw [ih]
      simp [removedEvents, removedTagged, List.filterMap_cons, h]
    · simp only [h, if_false]
      rw [ih]
      simp [removedEvents, removedTagged, List.filterMap_cons, h]

theorem diffChanges_decomp (current previous : Snapshot) :
    diffChanges current previous =
      newChangedEvents current previous ++ removedEvents current previous := by
  unfold diffChanges
  rw [fold1_eq previous current [], fold2_eq current previous]
  simp

theorem diffChanges_eq_tagged (current previous : Snapshot) :
    diffChanges current previous = (diffTagged current previous).map Prod.snd := by
  rw [diffChanges_decomp, diffTagged, List.map_append]
  rfl
/-- C2: for every snapshot `S` (a Python dict, so with pairwise-distinct
keys), diffing `S` against itself yields the empty event sequence:
the first pass finds every id with an unchanged online flag, the second
pass finds no id missing from `current`. -/
theorem diff_self_eq_nil (S : Snapshot) (hnd : keysNodup S) :
    diffChanges S S = [] := by
  rw [diffChanges_decomp]
  have h1 : newChangedEvents S S = [] := by
    unfold newChangedEvents step1Tagged
    rw [List.map_eq_nil_iff, List.filterMap_eq_nil_iff]
    intro p hp
    have hget : dictGet S p.1 = some p.2 := dictGet_of_mem S p.1 p.2 hnd hp
    simp [hget]
  have h2 : removedEvents S S = [] := by
    unfold removedEvents removedTagged
    rw [List.map_eq_nil_iff, List.filterMap_eq_nil_iff]
    intro p hp
    have hc : dictContains S p.1 = true :=
      (dictContains_true S p.1).mpr ⟨p.2, hp⟩
    simp [hc]
  rw [h1, h2]
  rfl

/-- Witness for C2 at a concrete two-entry snapshot. -/
theorem diff_self_eq_nil_witness :
    diffChanges [("A", ⟨"A", true, ""⟩), ("B", ⟨"B", false, ""⟩)]
        [("A", ⟨"A", true, ""⟩), ("B", ⟨"B", false, ""⟩)] = [] :=
  diff_self_eq_nil [("A", ⟨"A", true, ""⟩), ("B", ⟨"B", false, ""⟩)] (by unfold keysNodup keys; decide)
theorem step1Tagged_filter (current previous : Snapshot) (i : String)
    (hc : keysNodup current) :
    (step1Tagged current previous).filter (fun q => q.1 = i) =
      (match dictGet current i, dictGet previous i with
       | none, _ => []
       | some ec, none =>
         [(i, { device := ec.name
                status := if ec.online then "online" else "offline"
                type := "new" })]
       | some ec, some ep =>
         if ep.online != ec.online then
           [(i, { device := ec.name
                  status := if ec.online then "online" else "offline"
                  type := "changed" })]
         else []) := by
  unfold step1Tagged
  rw [filter_fst_filterMap]
  · rw [filter_key_of_nodup current i hc]
    cases hgc : dictGet current i with
    | none => simp
    | some ec =>
      simp only [Option.elim]
      rw [List.filterMap_cons]
      cases hgp : dictGet previous i with
      | none => simp [hgp]
      | some ep =>
        simp only [hgp]
        by_cases hon : ep.online = ec.online
        · simp [hon]
        · simp [bne_iff_ne, hon]
  · intro p q hq
    cases h : dictGet previous p.1 with
    | none => simp [h] at hq; simp [hq.symm]
    | some prev =>
      simp only [h] at hq
      by_cases hon : prev.online != p.2.online
      · rw [if_pos hon] at hq
        simp at hq
        simp [hq.symm]
      · rw [if_neg hon] at hq
        simp at hq

theorem removedTagged_filter (current previous : Snapshot) (i : String)
    (hp : keysNodup previous) :
    (removedTagged current previous).filter (fun q => q.1 = i) =
      (match dictGet previous i with
       | none => []
       | some ep =>
         if dictContains current i then []
         else [(i, { device := ep.name, status := "removed", type := "removed" })]) := by
  unfold removedTagged
  rw [filter_fst_filterMap]
  · rw [filter_key_of_nodup previous i hp]
    cases hgp : dictGet previous i with
    | none => simp
    | some ep =>
      simp only [Option.elim]
      rw [List.filterMap_cons]
      by_cases hc : dictContains current i
      · rw [if_pos hc, if_pos hc]
        simp
      · rw [if_neg hc, if_neg hc]
        simp
  · intro p q hq
    by_cases h : dictContains current p.1
    · rw [if_pos h] at hq
      simp at hq
    · rw [if_neg h] at hq
      simp at hq
      simp [hq.symm]
theorem dictGet_isSome (m : Snapshot) (k : String) :
    (dictGet m k).isSome = dictContains m k := by
  cases hg : dictGet m k with
  | none =>
    have := (dictGet_eq_none m k).mp hg
    simp [this]
  | some e =>
    have : dictContains m k = true :=
      (dictContains_true m k).mpr ⟨e, dictGet_mem m k e hg⟩
    simp [this]

theorem diffTagged_filter (current previous : Snapshot) (i : String)
    (hc : keysNodup current) (hp : keysNodup previous) :
    (diffTagged current previous).filter (fun q => q.1 = i) =
      (match dictGet current i, dictGet previous i with
       | none, none => []
       | some ec, none =>
         [(i, { device := ec.name
                status := if ec.online then "online" else "offline"
                type := "new" })]
       | some ec, some ep =>
         if ep.online != ec.online then
           [(i, { device := ec.name
                  status := if ec.online then "online" else "offline"
                  type := "changed" })]
         else []
       | none, some ep =>
         [(i, { device := ep.name, status := "removed", type := "removed" })]) := by
  unfold diffTagged
  rw [List.filter_append, step1Tagged_filter current previous i hc,
      removedTagged_filter current previous i hp]
  cases hgc : dictGet current i with
  | none =>
    have hcf : dictContains current i = false := (dictGet_eq_none current i).mp hgc
    cases hgp : dictGet previous i with
    | none => simp
    | some ep => simp [hcf]
  | some ec =>
    have hct : dictContains current i = true := by
      have := dictGet_isSome current i
      rw [hgc] at this
      exact this.symm
    cases hgp : dictGet previous i with
    | none => simp
    | some ep => simp [hct]
/-- C4: the diff's event sequence is the new/changed events in the
insertion order of `current` followed by the removed events in the
insertion order of `previous`; on Scenario 5 (`previous = {A: online,
B: offline}`, `current = {B: online, C: online}`) it is exactly
`[{B, online, changed}, {C, online, new}, {A, removed, removed}]`. -/
theorem diff_ordering_scenario :
    (∀ current previous : Snapshot,
        diffChanges current previous =
          newChangedEvents current previous ++ removedEvents current previous)
    ∧ diffChanges
        [("B", { name := "B", online := true, lastSeen := "" }),
         ("C", { name := "C", online := true, lastSeen := "" })]
        [("A", { name := "A", online := true, lastSeen := "" }),
         ("B", { name := "B", online := false, lastSeen := "" })] =
      [{ device := "B", status := "online", type := "changed" },
       { device := "C", status := "online", type := "new" },
       { device := "A", status := "removed", type := "removed" }] :=
  ⟨diffChanges_decomp, by decide⟩

/-- C3: the diff's events are the id-tagged events with the id projected
away; for every id at most one tagged event carries that id, and exactly
one does when the id's online flag differs between the two snapshots or
the id is present in exactly one of them. -/
theorem diff_completeness (current previous : Snapshot)
    (hc : keysNodup current) (hp : keysNodup previous) :
    (diffChanges current previous = (diffTagged current previous).map Prod.snd)
    ∧ (∀ i : String,
        ((diffTagged current previous).filter (fun q => q.1 = i)).length ≤ 1)
    ∧ (∀ i : String,
        ((dictContains current i = true ∧ dictContains previous i = false)
          ∨ (dictContains current i = false ∧ dictContains previous i = true)
          ∨ (∃ ec ep, dictGet current i = some ec ∧ dictGet previous i = some ep
               ∧ ec.online ≠ ep.online)) →
        ((diffTagged current previous).filter (fun q => q.1 = i)).length = 1) := by
  refine ⟨diffChanges_eq_tagged current previous, ?_, ?_⟩
  · intro i
    rw [diffTagged_filter current previous i hc hp]
    cases hgc : dictGet current i with
    | none => cases hgp : dictGet previous i <;> simp
    | some ec =>
      cases hgp : dictGet previous i with
      | none => simp
      | some ep =>
        by_cases hon : ep.online = ec.online <;> simp [bne_iff_ne, hon]
  · intro i h
    rw [diffTagged_filter current previous i hc hp]
    rcases h with ⟨hct, hpf⟩ | ⟨hcf, hpt⟩ | ⟨ec, ep, hgc, hgp, hon⟩
    · have hsome : (dictGet current i).isSome = true := by
        rw [dictGet_isSome, hct]
      rcases Option.isSome_iff_exists.mp hsome with ⟨ec, hgc⟩
      have hgp : dictGet previous i = none := (dictGet_eq_none previous i).mpr hpf
      simp [hgc, hgp]
    · have hsome : (dictGet previous i).isSome = true := by
        rw [dictGet_isSome, hpt]
      rcases Option.isSome_iff_exists.mp hsome with ⟨ep, hgp⟩
      have hgc : dictGet current i = none := (dictGet_eq_none current i).mpr hcf
      simp [hgc, hgp]
    · simp [hgc, hgp, bne_iff_ne, Ne.symm hon]

/-- Witness for C3 at `current = {A: online}`, `previous = {}`:
the new id `A` yields exactly one tagged event. -/
theorem diff_completeness_witness :
    ((diffTagged [("A", { name := "A", online := true, lastSeen := "" })] []).filter
        (fun q => q.1 = "A")).length = 1 :=
  (diff_completeness [("A", { name := "A", online := true, lastSeen := "" })] []
      (by unfold keysNodup keys; decide) (by unfold keysNodup keys; decide)).2.2
    "A" (Or.inl ⟨by decide, by decide⟩)
/-- C10: an id present in both snapshots with equal online flags yields no
event, whatever the entries' name and lastSeen fields; and every removed
event reports the name stored in the previous snapshot's entry. -/
theorem diff_online_flag_only (current previous : Snapshot)
    (hc : keysNodup current) (hp : keysNodup previous) :
    (∀ i ec ep, dictGet current i = some ec → dictGet previous i = some ep →
        ec.online = ep.online →
        (diffTagged current previous).filter (fun q => q.1 = i) = [])
    ∧ (∀ i ev, (i, ev) ∈ diffTagged current previous → ev.type = "removed" →
        ∃ e, dictGet previous i = some e ∧ ev.device = e.name) := by
  constructor
  · intro i ec ep hgc hgp hon
    rw [diffTagged_filter current previous i hc hp]
    simp [hgc, hgp, bne_iff_ne, hon.symm]
  · intro i ev hmem htype
    unfold diffTagged at hmem
    rcases List.mem_append.mp hmem with h1 | h2
    · exfalso
      unfold step1Tagged at h1
      rcases List.mem_filterMap.mp h1 with ⟨p, _, hfp⟩
      cases hg : dictGet previous p.1 with
      | none =>
        simp only [hg] at hfp
        simp only [Option.some.injEq, Prod.mk.injEq] at hfp
        obtain ⟨hpi, hev⟩ := hfp
        have hnew : ev.type = "new" := by rw [← hev]
        rw [hnew] at htype
        exact absurd htype (by decide)
      | some prev =>
        simp only [hg] at hfp
        by_cases hon : prev.online != p.2.online
        · rw [if_pos hon] at hfp
          simp only [Option.some.injEq, Prod.mk.injEq] at hfp
          obtain ⟨hpi, hev⟩ := hfp
          have hch : ev.type = "changed" := by rw [← hev]
          rw [hch] at htype
          exact absurd htype (by decide)
        · rw [if_neg hon] at hfp
          exact Option.noConfusion hfp
    · unfold removedTagged at h2
      rcases List.mem_filterMap.mp h2 with ⟨p, hpm, hfp⟩
      by_cases hcont : dictContains current p.1
      · rw [if_pos hcont] at hfp
        exact Option.noConfusion hfp
      · rw [if_neg hcont] at hfp
        simp only [Option.some.injEq, Prod.mk.injEq] at hfp
        obtain ⟨hpi, hev⟩ := hfp
        have hdev : ev.device = p.2.name := by rw [← hev]
        exact ⟨p.2, hpi ▸ dictGet_of_mem previous p.1 p.2 hp hpm, hdev⟩

/-- Witness for C10: id `A` present in both snapshots with equal online
flags but different names and lastSeen values yields no event. -/
theorem diff_online_flag_only_witness :
    (diffTagged [("A", { name := "x", online := true, lastSeen := "1" })]
        [("A", { name := "y", online := true, lastSeen := "2" })]).filter
      (fun q => q.1 = "A") = [] :=
  (diff_online_flag_only
      [("A", { name := "x", online := true, lastSeen := "1" })]
      [("A", { name := "y", online := true, lastSeen := "2" })]
      (by unfold keysNodup keys; decide) (by unfold keysNodup keys; decide)).1
    "A" { name := "x", online := true, lastSeen := "1" }
    { name := "y", online := true, lastSeen := "2" } rfl rfl rfl
/-- C5: for a parsable (hence non-empty) lastSeen string, the classifier
returns true iff `now - lastSeen < thresholdSeconds`, with strict
inequality: at exactly the threshold it is false, at any elapsed time
strictly below it — including a negative elapsed time from a future
timestamp — it is true. -/
theorem is_device_online_iff (parse : String → Option ℚ) (now : ℚ)
    (threshold : Int) (device : RawDevice) (s : String) (t : ℚ)
    (hs : device.lastSeen = some s) (hne : s ≠ "") (hp : parse s = some t) :
    (is_device_online parse now threshold device = true ↔
      now - t < (threshold : ℚ)) := by
  unfold is_device_online
  rw [hs]
  simp [hne, hp]

/-- Witness for C5 at the exact boundary: `lastSeen = 5`, `now = 65`,
threshold 60 seconds, so the elapsed time is exactly the threshold. -/
theorem is_device_online_iff_witness :
    (is_device_online (fun s => if s = "ts" then some (5 : ℚ) else none) 65 60
        { id := some "1", name := some "a", hostname := none,
          lastSeen := some "ts" } = true
      ↔ (65 : ℚ) - 5 < ((60 : Int) : ℚ)) :=
  is_device_online_iff (fun s => if s = "ts" then some (5 : ℚ) else none) 65 60
    { id := some "1", name := some "a", hostname := none, lastSeen := some "ts" }
    "ts" 5 rfl (by decide) (by simp)

/-- C6: an absent or unparsable lastSeen is classified offline, for every
parser, current instant and threshold; the embedded classifier is a total
function into `Bool`, modelling that the caught parse exception never
reaches the caller. -/
theorem is_device_online_fails_closed (parse : String → Option ℚ) (now : ℚ)
    (threshold : Int) (device : RawDevice)
    (h : device.lastSeen = none
      ∨ ∃ s, device.lastSeen = some s ∧ parse s = none) :
    is_device_online parse now threshold device = false := by
  unfold is_device_online
  rcases h with h | ⟨s, hs, hparse⟩
  · rw [h]
  · rw [hs]
    by_cases hne : s = ""
    · simp [hne]
    · simp [hne, hparse]

/-- Witness for C6: a device with no lastSeen field, and one whose
lastSeen fails to parse, are both classified offline. -/
theorem is_device_online_fails_closed_witness :
    is_device_online (fun _ => none) 0 60
      { id := some "1", name := none, hostname := none, lastSeen := none }
      = false :=
  is_device_online_fails_closed (fun _ => none) 0 60
    { id := some "1", name := none, hostname := none, lastSeen := none }
    (Or.inl rfl)

/-- C9: a record without a lastSeen field gets the empty string stored as
its entry's lastSeen, and an empty-string lastSeen is classified offline
under every parser — the timestamp parse is never consulted. -/
theorem empty_lastSeen_offline (parse : String → Option ℚ) (now : ℚ)
    (threshold : Int) (device : RawDevice) :
    (device.lastSeen = none →
      (mkEntry parse now threshold device).lastSeen = "")
    ∧ (device.lastSeen = some "" →
      is_device_online parse now threshold device = false) := by
  constructor
  · intro h
    unfold mkEntry
    rw [h]
    rfl
  · intro h
    unfold is_device_online
    rw [h]
    simp

/-- Witness for C9, under a parser that would succeed on every string —
including the empty one — so the result can only come from the
short-circuit, not from the parse. -/
theorem empty_lastSeen_offline_witness :
    (mkEntry (fun _ => some 0) 0 60
        { id := some "1", name := none, hostname := none,
          lastSeen := none }).lastSeen = ""
    ∧ is_device_online (fun _ => some 0) 0 60
        { id := some "1", name := none, hostname := none,
          lastSeen := some "" } = false :=
  ⟨(empty_lastSeen_offline (fun _ => some 0) 0 60
      { id := some "1", name := none, hostname := none, lastSeen := none }).1 rfl,
   (empty_lastSeen_offline (fun _ => some 0) 0 60
      { id := some "1", name := none, hostname := none, lastSeen := some "" }).2 rfl⟩
theorem dictGet_cons (p : String × Entry) (m : Snapshot) (k : String) :
    dictGet (p :: m) k = if p.1 = k then some p.2 else dictGet m k := by
  unfold dictGet
  rw [List.find?_cons]
  by_cases h : p.1 = k
  · simp [h]
  · simp [h]

theorem dictContains_cons (p : String × Entry) (m : Snapshot) (k : String) :
    dictContains (p :: m) k = (decide (p.1 = k) || dictContains m k) := by
  unfold dictContains
  rw [List.any_cons]

theorem map_replace_get (m : Snapshot) (j k : String) (v : Entry) :
    dictGet (m.map (fun p => if p.1 = j then (j, v) else p)) k =
      if k = j then (if dictContains m j then some v else none)
      else dictGet m k := by
  induction m with
  | nil => by_cases h : k = j <;> simp [dictGet, dictContains, h]
  | cons p m ih =>
    simp only [List.map_cons]
    by_cases hpj : p.1 = j
    · by_cases hkj : k = j
      · simp [hpj, hkj, dictGet_cons, dictContains_cons]
      · have hjk : ¬j = k := fun h => hkj h.symm
        simp [hpj, hkj, hjk, dictGet_cons, dictContains_cons, ih]
    · by_cases hkj : k = j
      · rw [hkj] at ih ⊢
        simp [hpj, dictGet_cons, dictContains_cons, ih]
      · by_cases hpk : p.1 = k
        · simp [hpj, hkj, hpk, dictGet_cons]
        · simp [hpj, hkj, hpk, dictGet_cons, ih]

theorem dictGet_dictInsert (m : Snapshot) (j k : String) (v : Entry) :
    dictGet (dictInsert m j v) k = if k = j then some v else dictGet m k := by
  unfold dictInsert
  by_cases hc : dictContains m j
  · rw [if_pos hc, map_replace_get]
    by_cases hkj : k = j <;> simp [hkj, hc]
  · rw [if_neg hc]
    unfold dictGet
    rw [List.find?_append]
    cases hf : m.find? (fun p => p.1 = k) with
    | some q =>
      have hqk : q.1 = k := by
        have := List.find?_some hf
        simpa using this
      have hkne : ¬k = j := by
        intro hkj
        have hqm := List.mem_of_find?_eq_some hf
        have : dictContains m j = true :=
          (dictContains_true m j).mpr ⟨q.2, by
            have : q = (j, q.2) := by
              cases q
              simp only at hqk
              simp [hqk, hkj]
            rw [← this]
            exact hqm⟩
        exact hc this
      simp [hkne, hf, dictGet, Option.or]
    | none =>
      by_cases hkj : k = j
      · simp [hf, List.find?_cons, hkj, Option.or]
      · have hjk : ¬j = k := fun h => hkj h.symm
        simp [hf, List.find?_cons, hjk, hkj, dictGet, Option.or]

theorem keys_dictInsert (m : Snapshot) (j : String) (v : Entry) :
    keys (dictInsert m j v) =
      if dictContains m j then keys m else keys m ++ [j] := by
  unfold dictInsert
  by_cases hc : dictContains m j
  · rw [if_pos hc, if_pos hc]
    unfold keys
    rw [List.map_map]
    apply List.map_congr_left
    intro p _
    by_cases hpj : p.1 = j <;> simp [hpj]
  · rw [if_neg hc, if_neg hc]
    unfold keys
    simp

theorem keysNodup_dictInsert (m : Snapshot) (j : String) (v : Entry)
    (hnd : keysNodup m) : keysNodup (dictInsert m j v) := by
  unfold keysNodup
  rw [keys_dictInsert]
  by_cases hc : dictContains m j
  · rw [if_pos hc]
    exact hnd
  · rw [if_neg hc]
    rw [List.nodup_append]
    refine ⟨hnd, List.nodup_singleton j, ?_⟩
    intro a ha
    simp only [List.mem_singleton]
    intro haj
    subst haj
    rcases List.mem_map.mp ha with ⟨p, hpm, hpk⟩
    exact absurd ((dictContains_true m a).mpr ⟨p.2, by
      cases p
      simp only at hpk
      subst hpk
      exact hpm⟩) (by simp [hc])
theorem buildFold_none (parse : String → Option ℚ) (now : ℚ) (threshold : Int)
    (devices : List RawDevice) :
    devices.foldl
      (fun acc d =>
        match acc, d.id with
        | none, _ => none
        | some _, none => none
        | some m, some i => some (dictInsert m i (mkEntry parse now threshold d)))
      none = none := by
  induction devices with
  | nil => rfl
  | cons d rest ih =>
    rw [List.foldl_cons]
    exact ih

theorem lastWithId_cons (d : RawDevice) (rest : List RawDevice) (i : String) :
    lastWithId (d :: rest) i =
      (lastWithId rest i).or (if d.id = some i then some d else none) := by
  unfold lastWithId
  rw [List.reverse_cons, List.find?_append]
  congr 1
  rw [List.find?_cons]
  by_cases h : d.id = some i
  · simp [h]
  · simp [h]

theorem buildFold_some (parse : String → Option ℚ) (now : ℚ) (threshold : Int) :
    ∀ (ds : List RawDevice) (m s : Snapshot),
      ds.foldl
        (fun acc d =>
          match acc, d.id with
          | none, _ => none
          | some _, none => none
          | some m, some i => some (dictInsert m i (mkEntry parse now threshold d)))
        (some m) = some s →
      (keysNodup m → keysNodup s)
      ∧ ∀ i, dictGet s i =
          (match lastWithId ds i with
           | some d => some (mkEntry parse now threshold d)
           | none => dictGet m i) := by
  intro ds
  induction ds with
  | nil =>
    intro m s h
    simp only [List.foldl_nil, Option.some.injEq] at h
    subst h
    refine ⟨fun hm => hm, fun i => ?_⟩
    simp [lastWithId]
  | cons d rest ih =>
    intro m s h
    rw [List.foldl_cons] at h
    cases hid : d.id with
    | none =>
      simp only [hid] at h
      rw [buildFold_none] at h
      exact Option.noConfusion h
    | some j =>
      simp only [hid] at h
      obtain ⟨hnd, hget⟩ := ih (dictInsert m j (mkEntry parse now threshold d)) s h
      refine ⟨fun hm => hnd (keysNodup_dictInsert m j _ hm), fun i => ?_⟩
      rw [hget i, lastWithId_cons, hid]
      cases hl : lastWithId rest i with
      | some dlast => simp
      | none =>
        simp only [Option.or]
        by_cases hji : j = i
        · rw [if_pos (by rw [hji]), dictGet_dictInsert]
          rw [if_pos hji.symm]
        · rw [if_neg (by simp [hji]), dictGet_dictInsert]
          rw [if_neg (fun hh => hji hh.symm)]
/-- Counterexample to C1 as stated: a batch holding a valid record and a
record without an id yields no snapshot at all — `device['id']` raises,
aborting the whole batch, instead of the malformed record being skipped. -/
theorem build_missing_id_counterexample :
    buildSnapshot (fun _ => none) 0 60
      [{ id := some "A", name := some "A", hostname := none, lastSeen := none },
       { id := none, name := some "bad", hostname := none, lastSeen := none }]
      = none := rfl

/-- C1 (amended): a raw device list containing a record without an id
produces no snapshot: the missing identifier aborts processing of the
whole batch (the modelled `KeyError`), whatever the other records are. -/
theorem buildSnapshot_missing_id (parse : String → Option ℚ) (now : ℚ)
    (threshold : Int) (devices : List RawDevice)
    (h : ∃ d, d ∈ devices ∧ d.id = none) :
    buildSnapshot parse now threshold devices = none := by
  unfold buildSnapshot
  suffices H : ∀ (ds : List RawDevice) (acc : Option Snapshot),
      (∃ d, d ∈ ds ∧ d.id = none) →
      ds.foldl
        (fun acc d =>
          match acc, d.id with
          | none, _ => none
          | some _, none => none
          | some m, some i => some (dictInsert m i (mkEntry parse now threshold d)))
        acc = none by
    exact H devices (some []) h
  intro ds
  induction ds with
  | nil =>
    intro acc hex
    rcases hex with ⟨d, hd, _⟩
    simp at hd
  | cons hd rest ih =>
    intro acc hex
    rw [List.foldl_cons]
    rcases hex with ⟨d, hdm, hid⟩
    rcases List.mem_cons.mp hdm with rfl | hmem
    · cases acc with
      | none => exact buildFold_none parse now threshold rest
      | some m =>
        simp only [hid]
        exact buildFold_none parse now threshold rest
    · exact ih _ ⟨d, hmem, hid⟩

/-- Witness for the amended C1 at a concrete two-record batch. -/
theorem buildSnapshot_missing_id_witness :
    buildSnapshot (fun _ => none) 0 60
      [{ id := none, name := some "bad", hostname := none, lastSeen := none },
       { id := some "B", name := some "B", hostname := none, lastSeen := none }]
      = none :=
  buildSnapshot_missing_id (fun _ => none) 0 60
    [{ id := none, name := some "bad", hostname := none, lastSeen := none },
     { id := some "B", name := some "B", hostname := none, lastSeen := none }]
    ⟨{ id := none, name := some "bad", hostname := none, lastSeen := none },
     by simp, rfl⟩
/-- Counterexample to C7 as stated: first, a list containing a record
without an id yields no snapshot (so there is no entry for the remaining
valid records); second, a record whose name field is present but empty
gets its hostname as display name, not the name field — `or` in
`device.get('name') or device.get('hostname', 'Unknown')` falls through
on the empty string. -/
theorem buildSnapshot_counterexample :
    buildSnapshot (fun _ => none) 0 60
      [{ id := none, name := none, hostname := none, lastSeen := none },
       { id := some "V", name := some "V", hostname := none, lastSeen := none }]
      = none
    ∧ ((buildSnapshot (fun _ => none) 0 60
          [{ id := some "1", name := some "", hostname := some "h",
             lastSeen := none }]).bind
        (fun s => dictGet s "1")).map Entry.name = some "h" := ⟨rfl, rfl⟩

/-- C7 (amended): whenever the build succeeds (every record has an id),
the snapshot has pairwise-distinct keys, its entry at each id is the one
built from the last input record carrying that id (last-write-wins), an
id has an entry exactly when some record carries it, and the entry name
is the record's name field if present and non-empty, else its hostname
field if present, else "Unknown". -/
theorem buildSnapshot_lww (parse : String → Option ℚ) (now : ℚ)
    (threshold : Int) (devices : List RawDevice) (s : Snapshot)
    (h : buildSnapshot parse now threshold devices = some s) :
    keysNodup s
    ∧ (∀ i, dictGet s i =
        (lastWithId devices i).map (mkEntry parse now threshold))
    ∧ (∀ i, (dictGet s i).isSome ↔ ∃ d, d ∈ devices ∧ d.id = some i)
    ∧ (∀ d n, d.name = some n → n ≠ "" →
        (mkEntry parse now threshold d).name = n)
    ∧ (∀ d hn, (d.name = none ∨ d.name = some "") → d.hostname = some hn →
        (mkEntry parse now threshold d).name = hn)
    ∧ (∀ d, (d.name = none ∨ d.name = some "") → d.hostname = none →
        (mkEntry parse now threshold d).name = "Unknown") := by
  unfold buildSnapshot at h
  obtain ⟨hnd, hget⟩ := buildFold_some parse now threshold devices [] s h
  have hget' : ∀ i, dictGet s i =
      (lastWithId devices i).map (mkEntry parse now threshold) := by
    intro i
    rw [hget i]
    cases hl : lastWithId devices i with
    | some d => rfl
    | none => simp [dictGet]
  refine ⟨hnd (by simp [keysNodup, keys]), hget', ?_, ?_, ?_, ?_⟩
  · intro i
    rw [hget' i]
    rw [Option.isSome_map']
    unfold lastWithId
    rw [List.find?_isSome]
    constructor
    · rintro ⟨d, hdm, hdi⟩
      exact ⟨d, List.mem_reverse.mp hdm, by simpa using hdi⟩
    · rintro ⟨d, hdm, hdi⟩
      exact ⟨d, List.mem_reverse.mpr hdm, by simpa using hdi⟩
  · intro d n hn hne
    unfold mkEntry displayName
    rw [hn]
    simp [hne]
  · intro d hn hname hhost
    unfold mkEntry displayName
    rcases hname with hname | hname <;> rw [hname] <;> simp [hhost]
  · intro d hname hhost
    unfold mkEntry displayName
    rcases hname with hname | hname <;> rw [hname] <;> simp [hhost]

/-- Witness for the amended C7 on a batch with a duplicate id: the entry
stored under the id comes from the last record carrying it. -/
theorem buildSnapshot_lww_witness :
    dictGet [("1", { name := "b", online := false, lastSeen := "" })] "1" =
      (lastWithId
          [{ id := some "1", name := some "a", hostname := none, lastSeen := none },
           { id := some "1", name := some "b", hostname := none, lastSeen := none }]
          "1").map (mkEntry (fun _ => none) 0 60) :=
  (buildSnapshot_lww (fun _ => none) 0 60
      [{ id := some "1", name := some "a", hostname := none, lastSeen := none },
       { id := some "1", name := some "b", hostname := none, lastSeen := none }]
      [("1", { name := "b", online := false, lastSeen := "" })] rfl).2.1 "1"
/-- C8: the status-report body joins, with newlines: the total device
count, the online partition header with its count followed by the
lexicographically sorted online names (or the placeholder when empty),
the offline partition likewise, and the check-interval line; the two
partitions exhaust the device list, and each sorted list is an ordered
permutation of its partition. -/
theorem initial_status_report (parse : String → Option ℚ) (now : ℚ)
    (threshold : Int) (interval : Int) (devices : List RawDevice) :
    (initialStatusBody parse now threshold interval devices =
      String.intercalate "\n"
        (["Total Devices: " ++ toString devices.length,
          "",
          "🟢 Online (" ++ toString (onlineNames parse now threshold devices).length ++ "):"]
         ++ (if (onlineNames parse now threshold devices).isEmpty then ["  (none)"]
             else (pySorted (onlineNames parse now threshold devices)).map
               (fun d => "  • " ++ d))
         ++ ["",
             "🔴 Offline (" ++ toString (offlineNames parse now threshold devices).length ++ "):"]
         ++ (if (offlineNames parse now threshold devices).isEmpty then ["  (none)"]
             else (pySorted (offlineNames parse now threshold devices)).map
               (fun d => "  • " ++ d))
         ++ ["",
             "🔍 Now monitoring for changes (checking every " ++ toString interval ++ "s)..."]))
    ∧ (onlineNames parse now threshold devices).length
        + (offlineNames parse now threshold devices).length = devices.length
    ∧ List.Sorted (· ≤ ·) (pySorted (onlineNames parse now threshold devices))
    ∧ List.Perm (pySorted (onlineNames parse now threshold devices))
        (onlineNames parse now threshold devices)
    ∧ List.Sorted (· ≤ ·) (pySorted (offlineNames parse now threshold devices))
    ∧ List.Perm (pySorted (offlineNames parse now threshold devices))
        (offlineNames parse now threshold devices) := by
  have hpart : (onlineNames parse now threshold devices).length
      + (offlineNames parse now threshold devices).length = devices.length := by
    unfold onlineNames offlineNames
    rw [List.length_map, List.length_map]
    induction devices with
    | nil => rfl
    | cons d ds ih =>
      by_cases h : is_device_online parse now threshold d <;>
        simp [List.filter_cons, h] <;> omega
  refine ⟨?_, hpart, List.sorted_insertionSort _ _, List.perm_insertionSort _ _,
    List.sorted_insertionSort _ _, List.perm_insertionSort _ _⟩
  unfold initialStatusBody statusBodyParts
  rw [hpart]
